import Mathlib

/-!
Verification of the rustjoycal controller calibration tool.

The definitions below are a shallow embedding of `src/controller.rs` and
`src/main.rs`.  Machine integers (`u8`, `u16`, `u32`) are modelled as `Nat`
with explicit `% 2^w` at the points where the Rust code truncates or wraps;
bit operations (`&`, `|`, `<<`, `>>`) are modelled by the corresponding `Nat`
bitwise operators.  Device I/O is modelled by response oracles, and the
commands, timed reads and sleeps a routine performs are recorded in an
explicit event trace.
-/

/-! ### Byte codec (`controller.rs`, `encode_stick_params` and the stick
decoding inside `Controller::read_stick_data`) -/

/-- `fn encode_stick_params(decoded: &[u16; 2]) -> [u8; 3]`:
`encoded[0] = (decoded[0] & 0xFF) as u8;`
`encoded[1] = ((decoded[0] & 0xF00) >> 8) as u8 | ((decoded[1] & 0xF) << 4) as u8;`
`encoded[2] = ((decoded[1] & 0xFF0) >> 4) as u8`  (`as u8` is `% 256`). -/
def encode_stick_params (d0 d1 : Nat) : List Nat :=
  [(d0 &&& 0xFF) % 256,
   (((d0 &&& 0xF00) >>> 8) % 256) ||| (((d1 &&& 0xF) <<< 4) % 256),
   ((d1 &&& 0xFF0) >>> 4) % 256]

/-- The low-value half of the 3-byte group decoding done in
`Controller::read_stick_data`: `((buf[7] & 0xF) as u16) << 8 | buf[6] as u16`
(with `b0 = buf[6]`, `b1 = buf[7]`). -/
def decode_stick_lo (b0 b1 : Nat) : Nat :=
  ((b1 &&& 0xF) <<< 8) ||| b0

/-- The high-value half of the 3-byte group decoding done in
`Controller::read_stick_data`: `(buf[8] as u16) << 4 | ((buf[7] & 0xF0) >> 4) as u16`
(with `b1 = buf[7]`, `b2 = buf[8]`). -/
def decode_stick_hi (b1 b2 : Nat) : Nat :=
  (b2 <<< 4) ||| ((b1 &&& 0xF0) >>> 4)

/-! Bridging lemmas from bitwise operations to division/modulus. -/

lemma and_shiftRight_distrib (x y n : Nat) :
    (x &&& y) >>> n = (x >>> n) &&& (y >>> n) := by
  apply Nat.eq_of_testBit_eq
  intro i
  simp [Nat.testBit_shiftRight, Nat.add_comm, Nat.add_left_comm]

lemma and_mask_FF (x : Nat) : x &&& 0xFF = x % 256 := by
  simpa using Nat.and_pow_two_sub_one_eq_mod x 8

lemma and_mask_F (x : Nat) : x &&& 0xF = x % 16 := by
  simpa using Nat.and_pow_two_sub_one_eq_mod x 4

lemma or_of_mul_16 (a b : Nat) (h : b < 16) : (16 * a) ||| b = 16 * a + b := by
  have h2 : b < 2 ^ 4 := by omega
  simpa using (Nat.mul_add_lt_is_or h2 a).symm

lemma or_of_mul_256 (a b : Nat) (h : b < 256) : (256 * a) ||| b = 256 * a + b := by
  have h2 : b < 2 ^ 8 := by omega
  simpa using (Nat.mul_add_lt_is_or h2 a).symm

lemma and_F00_shift (x : Nat) : (x &&& 0xF00) >>> 8 = x / 256 % 16 := by
  have h : (0xF00 : Nat) >>> 8 = 0xF := by decide
  rw [and_shiftRight_distrib, h, and_mask_F, Nat.shiftRight_eq_div_pow]

lemma and_FF0_shift (x : Nat) : (x &&& 0xFF0) >>> 4 = x / 16 % 256 := by
  have h : (0xFF0 : Nat) >>> 4 = 0xFF := by decide
  rw [and_shiftRight_distrib, h, and_mask_FF, Nat.shiftRight_eq_div_pow]

lemma and_F0_shift (x : Nat) : (x &&& 0xF0) >>> 4 = x / 16 % 16 := by
  have h : (0xF0 : Nat) >>> 4 = 0xF := by decide
  rw [and_shiftRight_distrib, h, and_mask_F, Nat.shiftRight_eq_div_pow]

lemma shiftLeft_four (x : Nat) : x <<< 4 = 16 * x := by
  rw [Nat.shiftLeft_eq]; ring

lemma shiftLeft_eight (x : Nat) : x <<< 8 = 256 * x := by
  rw [Nat.shiftLeft_eq]; ring

/-- The bytes produced by the encoder, in arithmetic form. -/
lemma encode_stick_params_eq (d0 d1 : Nat) :
    encode_stick_params d0 d1 =
      [d0 % 256, 16 * (d1 % 16) + d0 / 256 % 16, d1 / 16 % 256] := by
  unfold encode_stick_params
  rw [and_mask_FF, and_F00_shift, and_FF0_shift, and_mask_F, shiftLeft_four]
  have h1 : d0 % 256 % 256 = d0 % 256 := by omega
  have h2 : d0 / 256 % 16 % 256 = d0 / 256 % 16 := by omega
  have h3 : 16 * (d1 % 16) % 256 = 16 * (d1 % 16) := by omega
  have h4 : d1 / 16 % 256 % 256 = d1 / 16 % 256 := by omega
  rw [h1, h2, h3, h4, Nat.lor_comm, or_of_mul_16 _ _ (by omega)]

/-- Claim C1: for every pair of 12-bit values `v0, v1` in `[0, 0xFFF]`,
decoding the 3-byte group produced by `encode_stick_params` with the stick
decoder of `read_stick_data` yields `(v0, v1)` back: the decoder is the exact
inverse of the encoder on that layout. -/
theorem codec_round_trip (v0 v1 : Nat) (h0 : v0 ≤ 0xFFF) (h1 : v1 ≤ 0xFFF) :
    decode_stick_lo ((encode_stick_params v0 v1).getD 0 0)
        ((encode_stick_params v0 v1).getD 1 0) = v0 ∧
    decode_stick_hi ((encode_stick_params v0 v1).getD 1 0)
        ((encode_stick_params v0 v1).getD 2 0) = v1 := by
  rw [encode_stick_params_eq]
  simp only [List.getD, List.get?_cons_zero, List.get?_cons_succ, Option.getD_some]
  unfold decode_stick_lo decode_stick_hi
  have e1 : 16 * (v1 % 16) + v0 / 256 % 16 = 16 * (v1 % 16) ||| v0 / 256 % 16 := by
    rw [or_of_mul_16 _ _ (by omega)]
  constructor
  · rw [e1, Nat.and_distrib_right, and_mask_F, and_mask_F]
    have hA : 16 * (v1 % 16) % 16 = 0 := by omega
    have hB : v0 / 256 % 16 % 16 = v0 / 256 % 16 := by omega
    rw [hA, hB, Nat.zero_or, shiftLeft_eight, or_of_mul_256 _ _ (by omega)]
    omega
  · rw [e1, shiftLeft_four, and_F0_shift]
    have hdiv : (16 * (v1 % 16) ||| v0 / 256 % 16) / 16 % 16 = v1 % 16 := by
      rw [← e1]; omega
    rw [hdiv, or_of_mul_16 _ _ (by omega)]
    omega

/-- Witness for `codec_round_trip` at `v0 = 0xABC`, `v1 = 0x123`. -/
theorem codec_round_trip_witness :
    decode_stick_lo ((encode_stick_params 0xABC 0x123).getD 0 0)
        ((encode_stick_params 0xABC 0x123).getD 1 0) = 0xABC ∧
    decode_stick_hi ((encode_stick_params 0xABC 0x123).getD 1 0)
        ((encode_stick_params 0xABC 0x123).getD 2 0) = 0x123 :=
  codec_round_trip 0xABC 0x123 (by decide) (by decide)

/-! ### Stick samples (`Controller::read_stick_data`) -/

/-- `struct StickData { lx, ly, rx, ry: u16 }`. -/
structure StickData where
  lx : Nat
  ly : Nat
  rx : Nat
  ry : Nat
deriving Repr, DecidableEq

/-- `impl Default for StickData`: all four axes at rest value `0x800`. -/
def StickData.default : StickData := ⟨0x800, 0x800, 0x800, 0x800⟩

/-- The fixed-offset decoding of one input report performed inside
`Controller::read_stick_data` (bytes 6..11 of the report buffer):
`lx = ((buf[7] & 0xF) as u16) << 8 | buf[6] as u16;`
`ly = (buf[8] as u16) << 4 | ((buf[7] & 0xF0) >> 4) as u16;`
`rx = ((buf[10] & 0xF) as u16) << 8 | buf[9] as u16;`
`ry = (buf[11] as u16) << 4 | ((buf[10] & 0xF0) >> 4) as u16`. -/
def decodeStickReport (buf : List Nat) : StickData :=
  { lx := decode_stick_lo (buf.getD 6 0) (buf.getD 7 0)
    ly := decode_stick_hi (buf.getD 7 0) (buf.getD 8 0)
    rx := decode_stick_lo (buf.getD 9 0) (buf.getD 10 0)
    ry := decode_stick_hi (buf.getD 10 0) (buf.getD 11 0) }

/-- One result of `device.read_timeout`: `none` models `Err(_)`, and
`some (res, buf)` models `Ok(res)` with `buf` the buffer contents after the
read. -/
abbrev ReadResult := Option (Nat × List Nat)

/-- The buffer-draining loop of `Controller::read_stick_data`: zero-timeout
reads are issued while they return `Ok(res)` with `res > 0`; each report with
`res > 12` replaces `last_valid_data`; an `Err` or a read of zero bytes stops
the loop.  The list argument is the finite prefix of read results the device
delivers before the model stops the loop (an empty tail behaves as a read of
zero bytes). -/
def drainReports : List ReadResult → Option StickData → Option StickData
  | [], acc => acc
  | none :: _, acc => acc
  | some (res, buf) :: rest, acc =>
    if res > 0 then
      drainReports rest (if res > 12 then some (decodeStickReport buf) else acc)
    else acc

/-- `Controller::read_stick_data`: drain all buffered reports keeping the
last decoded sample; if none was decoded, fall back to one blocking read
(`fb`) with a 20 ms timeout, which must yield more than 12 bytes; otherwise
the call fails (`none`). -/
def read_stick_data (reads : List ReadResult) (fb : ReadResult) : Option StickData :=
  match drainReports reads none with
  | some d => some d
  | none =>
    match fb with
    | some (res, buf) => if res > 12 then some (decodeStickReport buf) else none
    | none => none

/-- Every byte of a report buffer is a `u8` value. -/
def BufBytes (buf : List Nat) : Prop := ∀ b ∈ buf, b < 256

/-- A read result is well formed when its buffer holds `u8` values. -/
def ReadOk : ReadResult → Prop
  | none => True
  | some (_, buf) => BufBytes buf

/-- All axis fields of a sample lie in the 12-bit range. -/
def StickData.InRange (d : StickData) : Prop :=
  d.lx ≤ 0xFFF ∧ d.ly ≤ 0xFFF ∧ d.rx ≤ 0xFFF ∧ d.ry ≤ 0xFFF

lemma getD_lt_of_bufBytes {buf : List Nat} (h : BufBytes buf) (i : Nat) :
    buf.getD i 0 < 256 := by
  rcases lt_or_ge i buf.length with hi | hi
  · rw [List.getD_eq_getElem buf 0 hi]
    exact h _ (List.getElem_mem hi)
  · rw [List.getD_eq_default buf 0 hi]
    omega

lemma decode_stick_lo_lt {b0 b1 : Nat} (h0 : b0 < 256) : decode_stick_lo b0 b1 ≤ 0xFFF := by
  have hhi : (b1 &&& 0xF) <<< 8 < 2 ^ 12 := by
    have : b1 &&& 0xF ≤ 0xF := Nat.and_le_right
    rw [shiftLeft_eight]
    omega
  have hlo : b0 < 2 ^ 12 := by omega
  have := Nat.or_lt_two_pow hhi hlo
  unfold decode_stick_lo
  omega

lemma decode_stick_hi_lt {b1 b2 : Nat} (h2 : b2 < 256) : decode_stick_hi b1 b2 ≤ 0xFFF := by
  have hhi : b2 <<< 4 < 2 ^ 12 := by
    rw [shiftLeft_four]; omega
  have hlo : (b1 &&& 0xF0) >>> 4 < 2 ^ 12 := by
    have h1 : b1 &&& 0xF0 ≤ 0xF0 := Nat.and_le_right
    have h2' : (b1 &&& 0xF0) >>> 4 ≤ 0xF0 >>> 4 := by
      rw [Nat.shiftRight_eq_div_pow, Nat.shiftRight_eq_div_pow]
      exact Nat.div_le_div_right h1
    omega
  have := Nat.or_lt_two_pow hhi hlo
  unfold decode_stick_hi
  omega

lemma decodeStickReport_inRange {buf : List Nat} (h : BufBytes buf) :
    (decodeStickReport buf).InRange := by
  refine ⟨decode_stick_lo_lt (getD_lt_of_bufBytes h 6),
          decode_stick_hi_lt (getD_lt_of_bufBytes h 8),
          decode_stick_lo_lt (getD_lt_of_bufBytes h 9),
          decode_stick_hi_lt (getD_lt_of_bufBytes h 11)⟩

lemma drainReports_inRange {reads : List ReadResult} (hr : ∀ r ∈ reads, ReadOk r)
    {acc : Option StickData} (hacc : ∀ d, acc = some d → d.InRange) :
    ∀ d, drainReports reads acc = some d → d.InRange := by
  induction reads generalizing acc with
  | nil => simpa [drainReports] using hacc
  | cons r rest ih =>
    intro d hd
    match r with
    | none => exact hacc d (by simpa [drainReports] using hd)
    | some (res, buf) =>
      have hbuf : BufBytes buf := hr _ (List.mem_cons_self _ _)
      have hrest : ∀ x ∈ rest, ReadOk x := fun x hx => hr x (List.mem_cons_of_mem _ hx)
      rw [drainReports] at hd
      by_cases hres : res > 0
      · rw [if_pos hres] at hd
        refine ih hrest (fun d' hd' => ?_) d hd
        by_cases h12 : res > 12
        · rw [if_pos h12] at hd'
          cases hd'
          exact decodeStickReport_inRange hbuf
        · rw [if_neg h12] at hd'
          exact hacc d' hd'
      · rw [if_neg hres] at hd
        exact hacc d hd

/-- If every drained report has 12 or fewer bytes, the drain keeps its
accumulator unchanged. -/
lemma drainReports_short {reads : List ReadResult}
    (h : ∀ p, some p ∈ reads → p.1 ≤ 12) (acc : Option StickData) :
    drainReports reads acc = acc := by
  induction reads with
  | nil => rfl
  | cons r rest ih =>
    match r with
    | none => rfl
    | some (res, buf) =>
      rw [drainReports]
      have hres : res ≤ 12 := h (res, buf) (List.mem_cons_self _ _)
      by_cases hpos : res > 0
      · rw [if_pos hpos, if_neg (by omega)]
        exact ih fun p hp => h p (List.mem_cons_of_mem _ hp)
      · rw [if_neg hpos]

/-- Claim C9: every stick sample returned successfully by `read_stick_data`
has all four axis fields in `[0, 0xFFF]` (each is built from one full byte
and one 4-bit nibble), and a report of 12 or fewer bytes never contributes a
sample: if every available report is 12 bytes or shorter, the call fails. -/
theorem read_stick_data_in_range (reads : List ReadResult) (fb : ReadResult)
    (hr : ∀ r ∈ reads, ReadOk r) (hfb : ReadOk fb) :
    (∀ d, read_stick_data reads fb = some d → d.InRange) ∧
    ((∀ p, some p ∈ reads → p.1 ≤ 12) → (∀ p, fb = some p → p.1 ≤ 12) →
      read_stick_data reads fb = none) := by
  constructor
  · intro d hd
    rcases hdr : drainReports reads none with _ | d2
    · rcases hfbe : fb with _ | ⟨res, buf⟩
      · rw [read_stick_data.eq_def, hdr, hfbe] at hd
        cases hd
      · rw [read_stick_data.eq_def, hdr, hfbe] at hd
        dsimp only at hd
        rw [hfbe] at hfb
        by_cases h12 : res > 12
        · rw [if_pos h12] at hd
          injection hd with hd
          subst hd
          exact decodeStickReport_inRange hfb
        · rw [if_neg h12] at hd
          cases hd
    · rw [read_stick_data.eq_def, hdr] at hd
      dsimp only at hd
      injection hd with hd
      subst hd
      exact drainReports_inRange hr (by intro x hx; cases hx) d2 hdr
  · intro hshort hfbshort
    rw [read_stick_data.eq_def, drainReports_short hshort]
    match fb with
    | none => rfl
    | some (res, buf) =>
      have : res ≤ 12 := hfbshort (res, buf) rfl
      simp [if_neg (by omega : ¬ res > 12)]

/-- Witness for `read_stick_data_in_range`: a concrete session with one
13-byte report carrying mid-scale stick values. -/
theorem read_stick_data_in_range_witness :
    (∀ d, read_stick_data [some (49, [0, 0, 0, 0, 0, 0, 0x00, 0x08, 0x80, 0x00, 0x08, 0x80])]
        none = some d → d.InRange) ∧
    ((∀ p, some p ∈ [some ((49 : Nat), [(0 : Nat), 0, 0, 0, 0, 0, 0x00, 0x08, 0x80, 0x00, 0x08, 0x80])] → p.1 ≤ 12) →
      (∀ p, (none : ReadResult) = some p → p.1 ≤ 12) →
      read_stick_data [some (49, [0, 0, 0, 0, 0, 0, 0x00, 0x08, 0x80, 0x00, 0x08, 0x80])] none = none) :=
  read_stick_data_in_range
    [some (49, [0, 0, 0, 0, 0, 0, 0x00, 0x08, 0x80, 0x00, 0x08, 0x80])] none
    (by intro r hy; simp at hy; subst hy; intro b hb; simp at hb; omega)
    (by trivial)

/-! ### Calibration accumulator (`main.rs`, `CalibrationData`) -/

/-- `struct CalibrationData` of `main.rs`: per-axis running min/max for both
sticks, derived centers, and one provisional deadzone per stick. -/
structure CalibrationData where
  min_lx : Nat
  max_lx : Nat
  min_ly : Nat
  max_ly : Nat
  min_rx : Nat
  max_rx : Nat
  min_ry : Nat
  max_ry : Nat
  center_lx : Nat
  center_ly : Nat
  center_rx : Nat
  center_ry : Nat
  deadzone_l : Nat
  deadzone_r : Nat
deriving Repr, DecidableEq

/-- `CalibrationData::new`: mins seeded to `0xFFF`, maxes to `0`, all derived
fields `0`. -/
def CalibrationData.new : CalibrationData :=
  ⟨0xFFF, 0, 0xFFF, 0, 0xFFF, 0, 0xFFF, 0, 0, 0, 0, 0, 0, 0⟩

/-- `fn euclidean_distance(p1_x, p1_y, p2_x, p2_y: f64) -> f64` computes
`sqrt(dx^2 + dy^2)`; `update` divides it by `2.0` and truncates with
`as u16`.  On the call-site domain (12-bit integer coordinates) every f64
intermediate is exactly representable and the correctly rounded square root
cannot cross an integer or half-integer boundary, so the truncated result
equals the integer square root of the exact squared distance, halved. -/
def euclidean_distance_halved (p1x p1y p2x p2y : Nat) : Nat :=
  Nat.sqrt ((((p2x : Int) - p1x) ^ 2 + ((p2y : Int) - p1y) ^ 2)).toNat / 2

/-- `u16` wrapping addition (release-build semantics of `+`). -/
def wadd16 (a b : Nat) : Nat := (a + b) % 65536

/-- `u16` wrapping subtraction (release-build semantics of `-`). -/
def wsub16 (a b : Nat) : Nat := (a + 65536 - b % 65536) % 65536

/-- `CalibrationData::update(&mut self, data: &StickData)`: widen each
min/max with the sample, then recompute the four centers as
`(max + min) / 2` and both deadzones as the halved euclidean distance
between the extent corner points. -/
def CalibrationData.update (c : CalibrationData) (d : StickData) : CalibrationData :=
  let min_lx := min c.min_lx d.lx
  let max_lx := max c.max_lx d.lx
  let min_ly := min c.min_ly d.ly
  let max_ly := max c.max_ly d.ly
  let min_rx := min c.min_rx d.rx
  let max_rx := max c.max_rx d.rx
  let min_ry := min c.min_ry d.ry
  let max_ry := max c.max_ry d.ry
  { min_lx := min_lx, max_lx := max_lx, min_ly := min_ly, max_ly := max_ly
    min_rx := min_rx, max_rx := max_rx, min_ry := min_ry, max_ry := max_ry
    center_lx := wadd16 max_lx min_lx / 2
    center_ly := wadd16 max_ly min_ly / 2
    center_rx := wadd16 max_rx min_rx / 2
    center_ry := wadd16 max_ry min_ry / 2
    deadzone_l := euclidean_distance_halved min_lx min_ly max_lx max_ly
    deadzone_r := euclidean_distance_halved min_rx min_ry max_rx max_ry }

/-- The values derived by the `CalibrateCenter` branch of
`CalibrationApp::next_step`: per stick, `xcenter/ycenter = (min + max) / 2`
and `deadzone = (max_x - min_x) / 2` (x-axis based). -/
structure CenterResults where
  left_xcenter : Nat
  left_ycenter : Nat
  right_xcenter : Nat
  right_ycenter : Nat
  left_deadzone : Nat
  right_deadzone : Nat
deriving Repr, DecidableEq

/-- The `CalibrationStep::CalibrateCenter` arm of `next_step`. -/
def next_step_center (data : CalibrationData) : CenterResults :=
  { left_xcenter := wadd16 data.min_lx data.max_lx / 2
    left_ycenter := wadd16 data.min_ly data.max_ly / 2
    right_xcenter := wadd16 data.min_rx data.max_rx / 2
    right_ycenter := wadd16 data.min_ry data.max_ry / 2
    left_deadzone := wsub16 data.max_lx data.min_lx / 2
    right_deadzone := wsub16 data.max_rx data.min_rx / 2 }

/-- All extent fields of the accumulator are 12-bit values (holds for
`CalibrationData.new` and is preserved by `update` on in-range samples). -/
def CalibrationData.ExtentWF (c : CalibrationData) : Prop :=
  c.min_lx ≤ 0xFFF ∧ c.max_lx ≤ 0xFFF ∧ c.min_ly ≤ 0xFFF ∧ c.max_ly ≤ 0xFFF ∧
  c.min_rx ≤ 0xFFF ∧ c.max_rx ≤ 0xFFF ∧ c.min_ry ≤ 0xFFF ∧ c.max_ry ≤ 0xFFF

/-- Claim C4 (corrected): after each `update`, every min field is
non-increasing and every max field is non-decreasing, and each center field
equals `(min + max) / 2` of the updated extent.  The claim's deadzone formula
`(max - min) / 2` is not what the `update` deadzone fields hold (they hold the
halved euclidean corner distance, see the counterexample); the axis-based
`(max - min) / 2` value is instead the per-stick deadzone derived by the
`CalibrateCenter` arm of `next_step`. -/
theorem calibration_update_spec (c : CalibrationData) (d : StickData)
    (hc : c.ExtentWF) (hd : d.InRange) :
    ((c.update d).min_lx ≤ c.min_lx ∧ (c.update d).min_ly ≤ c.min_ly ∧
     (c.update d).min_rx ≤ c.min_rx ∧ (c.update d).min_ry ≤ c.min_ry) ∧
    ((c.update d).max_lx ≥ c.max_lx ∧ (c.update d).max_ly ≥ c.max_ly ∧
     (c.update d).max_rx ≥ c.max_rx ∧ (c.update d).max_ry ≥ c.max_ry) ∧
    ((c.update d).center_lx = ((c.update d).min_lx + (c.update d).max_lx) / 2 ∧
     (c.update d).center_ly = ((c.update d).min_ly + (c.update d).max_ly) / 2 ∧
     (c.update d).center_rx = ((c.update d).min_rx + (c.update d).max_rx) / 2 ∧
     (c.update d).center_ry = ((c.update d).min_ry + (c.update d).max_ry) / 2) ∧
    ((c.min_lx ≤ c.max_lx → (next_step_center c).left_deadzone = (c.max_lx - c.min_lx) / 2) ∧
     (c.min_rx ≤ c.max_rx → (next_step_center c).right_deadzone = (c.max_rx - c.min_rx) / 2)) ∧
    (c.update d).ExtentWF := by
  obtain ⟨h1, h2, h3, h4, h5, h6, h7, h8⟩ := hc
  obtain ⟨hd1, hd2, hd3, hd4⟩ := hd
  unfold CalibrationData.update next_step_center wadd16 wsub16 CalibrationData.ExtentWF
  simp only [Nat.min_def, Nat.max_def]
  constructor
  · split <;> split <;> split <;> split <;> omega
  constructor
  · split <;> split <;> split <;> split <;> omega
  constructor
  · refine ⟨?_, ?_, ?_, ?_⟩ <;> (split <;> split <;> omega)
  constructor
  · constructor <;> (intro hle; omega)
  · split <;> split <;> split <;> split <;> split <;> split <;> split <;> split <;> omega

/-- Witness for `calibration_update_spec`: applied to the accumulator state
after one mid-scale sample (where every min is at most the matching max) and
a second concrete sample. -/
theorem calibration_update_spec_witness :
    (next_step_center (CalibrationData.new.update StickData.default)).left_deadzone
      = ((CalibrationData.new.update StickData.default).max_lx
        - (CalibrationData.new.update StickData.default).min_lx) / 2 ∧
    ((CalibrationData.new.update StickData.default).update ⟨1, 2, 3, 4⟩).ExtentWF :=
  have h := calibration_update_spec (CalibrationData.new.update StickData.default)
    ⟨1, 2, 3, 4⟩
    (by norm_num [CalibrationData.update, CalibrationData.new, StickData.default,
                  CalibrationData.ExtentWF])
    (by norm_num [StickData.InRange])
  ⟨h.2.2.2.1.1 (by norm_num [CalibrationData.update, CalibrationData.new, StickData.default]),
   h.2.2.2.2⟩

/-- Counterexample to claim C4 as stated: after feeding samples
`(lx, ly) = (0, 0)` then `(6, 8)` to a fresh accumulator, the left deadzone
field holds `5` (half the euclidean corner distance `10`), which differs from
`(max - min) / 2` on both the x axis (`3`) and the y axis (`4`). -/
theorem calibration_update_deadzone_counterexample :
    ((CalibrationData.new.update ⟨0, 0, 0, 0⟩).update ⟨6, 8, 0, 0⟩).deadzone_l = 5 ∧
    (((CalibrationData.new.update ⟨0, 0, 0, 0⟩).update ⟨6, 8, 0, 0⟩).max_lx -
     ((CalibrationData.new.update ⟨0, 0, 0, 0⟩).update ⟨6, 8, 0, 0⟩).min_lx) / 2 = 3 ∧
    (((CalibrationData.new.update ⟨0, 0, 0, 0⟩).update ⟨6, 8, 0, 0⟩).max_ly -
     ((CalibrationData.new.update ⟨0, 0, 0, 0⟩).update ⟨6, 8, 0, 0⟩).min_ly) / 2 = 4 ∧
    (5 : Nat) ≠ 3 ∧ (5 : Nat) ≠ 4 := by
  refine ⟨?_, by norm_num [CalibrationData.update, CalibrationData.new],
          by norm_num [CalibrationData.update, CalibrationData.new], by omega, by omega⟩
  norm_num [CalibrationData.update, CalibrationData.new, euclidean_distance_halved]
  have ht : ((100 : Int)).toNat = 100 := rfl
  rw [ht]
  have h100 : Nat.sqrt 100 = 10 := by norm_num
  omega

/-! ### Calibration records and the outer-deadzone step -/

/-- `struct StickCalibration` of `controller.rs` (all fields `u16`). -/
structure StickCalibration where
  xmax : Nat
  ymax : Nat
  xcenter : Nat
  ycenter : Nat
  xmin : Nat
  ymin : Nat
deriving Repr, DecidableEq

/-- `StickCalibration::default()`: all fields zero. -/
def StickCalibration.default : StickCalibration := ⟨0, 0, 0, 0, 0, 0⟩

/-- `CalibrationApp::set_outer_deadzone(enable)`: picks
`padding = 0x050` when enabled, `0x000` otherwise, and replaces the min/max
bounds of both stick results with
`min = extent_min.saturating_add(padding).min(0xFFF)` and
`max = extent_max.saturating_sub(padding).max(0)` (saturating `u16`
operations modelled on `Nat`, where `saturating_sub` is truncated
subtraction and `saturating_add` caps at `65535`). -/
def set_outer_deadzone (enable : Bool) (data : CalibrationData)
    (lres rres : StickCalibration) : StickCalibration × StickCalibration :=
  let padding := if enable then 0x050 else 0x000
  ({ lres with
      xmin := min (min (data.min_lx + padding) 65535) 0xFFF
      ymin := min (min (data.min_ly + padding) 65535) 0xFFF
      xmax := max (data.max_lx - padding) 0
      ymax := max (data.max_ly - padding) 0 },
   { rres with
      xmin := min (min (data.min_rx + padding) 65535) 0xFFF
      ymin := min (min (data.min_ry + padding) 65535) 0xFFF
      xmax := max (data.max_rx - padding) 0
      ymax := max (data.max_ry - padding) 0 })

/-- The range-phase extent used in the claim C6 instance: every axis of both
sticks measured `min = 0x100`, `max = 0xE00`. -/
def exampleExtent : CalibrationData :=
  ⟨0x100, 0xE00, 0x100, 0xE00, 0x100, 0xE00, 0x100, 0xE00, 0, 0, 0, 0, 0, 0⟩

/-- Claim C6: the outer-deadzone padding is `0x050` when the caller enables
it and `0x000` otherwise; each final bound is
`min(extent_min + padding, 0xFFF)` respectively `max(extent_max - padding, 0)`
for every axis of both sticks; for the extent `(0x100, 0xE00)` with padding
enabled the final bounds are `(0x150, 0xDB0)`, and with padding disabled the
final bounds equal the raw extent unchanged. -/
theorem set_outer_deadzone_spec (enable : Bool) (data : CalibrationData)
    (lres rres : StickCalibration) :
    ((set_outer_deadzone enable data lres rres).1.xmin
        = min (data.min_lx + (if enable then 0x050 else 0)) 0xFFF ∧
     (set_outer_deadzone enable data lres rres).1.ymin
        = min (data.min_ly + (if enable then 0x050 else 0)) 0xFFF ∧
     (set_outer_deadzone enable data lres rres).1.xmax
        = max (data.max_lx - (if enable then 0x050 else 0)) 0 ∧
     (set_outer_deadzone enable data lres rres).1.ymax
        = max (data.max_ly - (if enable then 0x050 else 0)) 0 ∧
     (set_outer_deadzone enable data lres rres).2.xmin
        = min (data.min_rx + (if enable then 0x050 else 0)) 0xFFF ∧
     (set_outer_deadzone enable data lres rres).2.ymin
        = min (data.min_ry + (if enable then 0x050 else 0)) 0xFFF ∧
     (set_outer_deadzone enable data lres rres).2.xmax
        = max (data.max_rx - (if enable then 0x050 else 0)) 0 ∧
     (set_outer_deadzone enable data lres rres).2.ymax
        = max (data.max_ry - (if enable then 0x050 else 0)) 0) ∧
    ((set_outer_deadzone true exampleExtent StickCalibration.default
        StickCalibration.default).1.xmin = 0x150 ∧
     (set_outer_deadzone true exampleExtent StickCalibration.default
        StickCalibration.default).1.xmax = 0xDB0 ∧
     (set_outer_deadzone false exampleExtent StickCalibration.default
        StickCalibration.default).1.xmin = exampleExtent.min_lx ∧
     (set_outer_deadzone false exampleExtent StickCalibration.default
        StickCalibration.default).1.xmax = exampleExtent.max_lx) := by
  constructor
  · unfold set_outer_deadzone
    cases enable <;> simp
  · refine ⟨?_, ?_, ?_, ?_⟩ <;> decide

/-! ### Committing calibration to flash (`controller.rs`) -/

/-- `enum ControllerType { JoyConL, JoyConR, ProController }`. -/
inductive ControllerType where
  | JoyConL
  | JoyConR
  | ProController
deriving Repr, DecidableEq

/-- The 9-byte record built by `Controller::write_left_stick_calibration`:
three encoded pairs `(xmax-xcenter, ymax-ycenter)`, `(xcenter, ycenter)`,
`(xcenter-xmin, ycenter-ymin)` (wrapping `u16` subtraction). -/
def left_stick_cal_bytes (c : StickCalibration) : List Nat :=
  encode_stick_params (wsub16 c.xmax c.xcenter) (wsub16 c.ymax c.ycenter) ++
  encode_stick_params c.xcenter c.ycenter ++
  encode_stick_params (wsub16 c.xcenter c.xmin) (wsub16 c.ycenter c.ymin)

/-- The 9-byte record built by `Controller::write_right_stick_calibration`:
three encoded pairs `(xcenter, ycenter)`, `(xcenter-xmin, ycenter-ymin)`,
`(xmax-xcenter, ymax-ycenter)` (wrapping `u16` subtraction). -/
def right_stick_cal_bytes (c : StickCalibration) : List Nat :=
  encode_stick_params c.xcenter c.ycenter ++
  encode_stick_params (wsub16 c.xcenter c.xmin) (wsub16 c.ycenter c.ymin) ++
  encode_stick_params (wsub16 c.xmax c.xcenter) (wsub16 c.ymax c.ycenter)

/-- `Controller::write_calibration_to_device`, modelled as the ordered list
of `(address, payload)` pairs handed to `write_spi_data`:
`left_params = encode_stick_params([left_deadzone, range_ratio_l])` and
`right_params = encode_stick_params([range_ratio_r, right_deadzone])` with
both range-ratio constants fixed at `0xF80`; `JoyConL` overwrites
`right_params` with `left_params` and commits `left_cal` to both record
slots, `JoyConR` symmetrically, `ProController` keeps both sides; the writes
are issued right record, right params, left record, left params. -/
def write_calibration_to_device (ctype : ControllerType)
    (left_cal right_cal : StickCalibration)
    (left_deadzone right_deadzone : Nat) : List (Nat × List Nat) :=
  let left_params := encode_stick_params left_deadzone 0xF80
  let right_params := encode_stick_params 0xF80 right_deadzone
  let final : StickCalibration × StickCalibration × List Nat × List Nat :=
    match ctype with
    | ControllerType.JoyConL => (left_cal, left_cal, left_params, left_params)
    | ControllerType.JoyConR => (right_cal, right_cal, right_params, right_params)
    | ControllerType.ProController => (left_cal, right_cal, left_params, right_params)
  [(0x6046, right_stick_cal_bytes final.2.1),
   (0x609B, final.2.2.2),
   (0x603D, left_stick_cal_bytes final.1),
   (0x6089, final.2.2.1)]

/-- Counterexample to claim C2 as stated: for `JoyConL` the two 9-byte
calibration records written to the right slot (`0x6046`, list position 0) and
the left slot (`0x603D`, list position 2) are not byte-identical, because the
two slots use different field orders.  The record
`xmax = 5, ymax = 5, xcenter = 1, ycenter = 1, xmin = 0, ymin = 0`
distinguishes them. -/
theorem mirroring_counterexample :
    ((write_calibration_to_device ControllerType.JoyConL ⟨5, 5, 1, 1, 0, 0⟩
        StickCalibration.default 0 0).getD 0 (0, [])).2 ≠
    ((write_calibration_to_device ControllerType.JoyConL ⟨5, 5, 1, 1, 0, 0⟩
        StickCalibration.default 0 0).getD 2 (0, [])).2 := by
  decide

/-- Claim C2 (corrected): for `JoyConL` the parameter blocks written to the
two parameter slots are byte-identical, and both record slots receive records
derived from the same left calibration — the right-slot record equals the
left-slot record rotated by one 3-byte group, but the two records are not
byte-identical in general.  For `ProController`, changing only the left
record or the left deadzone never alters the right-slot record or the right
parameter block. -/
theorem mirroring_spec (lc rc lc2 : StickCalibration) (ldz rdz ldz2 : Nat) :
    (((write_calibration_to_device ControllerType.JoyConL lc rc ldz rdz).getD 1 (0, [])).2 =
       ((write_calibration_to_device ControllerType.JoyConL lc rc ldz rdz).getD 3 (0, [])).2 ∧
     ((write_calibration_to_device ControllerType.JoyConL lc rc ldz rdz).getD 0 (0, [])).2 =
       right_stick_cal_bytes lc ∧
     ((write_calibration_to_device ControllerType.JoyConL lc rc ldz rdz).getD 2 (0, [])).2 =
       left_stick_cal_bytes lc ∧
     right_stick_cal_bytes lc =
       (left_stick_cal_bytes lc).drop 3 ++ (left_stick_cal_bytes lc).take 3) ∧
    (((write_calibration_to_device ControllerType.ProController lc rc ldz rdz).getD 0 (0, [])).2 =
       ((write_calibration_to_device ControllerType.ProController lc2 rc ldz2 rdz).getD 0 (0, [])).2 ∧
     ((write_calibration_to_device ControllerType.ProController lc rc ldz rdz).getD 1 (0, [])).2 =
       ((write_calibration_to_device ControllerType.ProController lc2 rc ldz2 rdz).getD 1 (0, [])).2) := by
  refine ⟨⟨?_, ?_, ?_, ?_⟩, ?_, ?_⟩ <;>
    simp [write_calibration_to_device, left_stick_cal_bytes, right_stick_cal_bytes,
          encode_stick_params]

/-- A calibration record satisfying the documented invariant
`xmin ≤ xcenter ≤ xmax` and `ymin ≤ ycenter ≤ ymax`. -/
def StickCalibration.Ordered (c : StickCalibration) : Prop :=
  c.xmin ≤ c.xcenter ∧ c.xcenter ≤ c.xmax ∧ c.ymin ≤ c.ycenter ∧ c.ycenter ≤ c.ymax

/-- All six fields are 12-bit values. -/
def StickCalibration.Bounded12 (c : StickCalibration) : Prop :=
  c.xmax ≤ 0xFFF ∧ c.ymax ≤ 0xFFF ∧ c.xcenter ≤ 0xFFF ∧
  c.ycenter ≤ 0xFFF ∧ c.xmin ≤ 0xFFF ∧ c.ymin ≤ 0xFFF

lemma wsub16_eq_sub {a b : Nat} (hba : b ≤ a) (ha : a < 65536) :
    wsub16 a b = a - b := by
  unfold wsub16
  omega

/-- Claim C7: a commit performs exactly four SPI writes in the fixed order
right record (9 bytes to `0x6046`), right params (3 bytes to `0x609B`),
left record (9 bytes to `0x603D`), left params (3 bytes to `0x6089`); and on
records satisfying the calibration invariant the left record packs the pairs
`(xmax-xcenter, ymax-ycenter)`, `(xcenter, ycenter)`, `(xcenter-xmin,
ycenter-ymin)` in that order while the right record packs `(xcenter,
ycenter)`, `(xcenter-xmin, ycenter-ymin)`, `(xmax-xcenter, ymax-ycenter)`. -/
theorem commit_order_spec (ctype : ControllerType) (lc rc : StickCalibration)
    (ldz rdz : Nat) :
    ((write_calibration_to_device ctype lc rc ldz rdz).map Prod.fst =
       [0x6046, 0x609B, 0x603D, 0x6089] ∧
     (write_calibration_to_device ctype lc rc ldz rdz).map (fun w => w.2.length) =
       [9, 3, 9, 3]) ∧
    (∀ c : StickCalibration, c.Ordered → c.Bounded12 →
      left_stick_cal_bytes c =
        encode_stick_params (c.xmax - c.xcenter) (c.ymax - c.ycenter) ++
        encode_stick_params c.xcenter c.ycenter ++
        encode_stick_params (c.xcenter - c.xmin) (c.ycenter - c.ymin)) ∧
    (∀ c : StickCalibration, c.Ordered → c.Bounded12 →
      right_stick_cal_bytes c =
        encode_stick_params c.xcenter c.ycenter ++
        encode_stick_params (c.xcenter - c.xmin) (c.ycenter - c.ymin) ++
        encode_stick_params (c.xmax - c.xcenter) (c.ymax - c.ycenter)) := by
  refine ⟨⟨?_, ?_⟩, ?_, ?_⟩
  · cases ctype <;> rfl
  · cases ctype <;>
      simp [write_calibration_to_device, left_stick_cal_bytes, right_stick_cal_bytes,
            encode_stick_params]
  · intro c ho hb
    obtain ⟨o1, o2, o3, o4⟩ := ho
    obtain ⟨b1, b2, b3, b4, b5, b6⟩ := hb
    unfold left_stick_cal_bytes
    rw [wsub16_eq_sub o2 (by omega), wsub16_eq_sub o4 (by omega),
        wsub16_eq_sub o1 (by omega), wsub16_eq_sub o3 (by omega)]
  · intro c ho hb
    obtain ⟨o1, o2, o3, o4⟩ := ho
    obtain ⟨b1, b2, b3, b4, b5, b6⟩ := hb
    unfold right_stick_cal_bytes
    rw [wsub16_eq_sub o2 (by omega), wsub16_eq_sub o4 (by omega),
        wsub16_eq_sub o1 (by omega), wsub16_eq_sub o3 (by omega)]

/-- Witness for `commit_order_spec`: concrete commit of an ordered record. -/
theorem commit_order_spec_witness :
    (write_calibration_to_device ControllerType.ProController
        ⟨0xE00, 0xE00, 0x800, 0x800, 0x100, 0x100⟩
        ⟨0xE00, 0xE00, 0x800, 0x800, 0x100, 0x100⟩ 0x80 0x80).map Prod.fst =
      [0x6046, 0x609B, 0x603D, 0x6089] ∧
    left_stick_cal_bytes ⟨0xE00, 0xE00, 0x800, 0x800, 0x100, 0x100⟩ =
      encode_stick_params (0xE00 - 0x800) (0xE00 - 0x800) ++
      encode_stick_params 0x800 0x800 ++
      encode_stick_params (0x800 - 0x100) (0x800 - 0x100) :=
  have h := commit_order_spec ControllerType.ProController
    ⟨0xE00, 0xE00, 0x800, 0x800, 0x100, 0x100⟩
    ⟨0xE00, 0xE00, 0x800, 0x800, 0x100, 0x100⟩ 0x80 0x80
  ⟨h.1.1, h.2.1 ⟨0xE00, 0xE00, 0x800, 0x800, 0x100, 0x100⟩
    (by norm_num [StickCalibration.Ordered]) (by norm_num [StickCalibration.Bounded12])⟩

/-- The eight `u16` subtractions performed while packing the two calibration
records during a commit (the `wsub16` call sites of `left_stick_cal_bytes lc`
and `right_stick_cal_bytes rc`) and the condition under which at least one of
them underflows. -/
def commit_sub_underflows (lc rc : StickCalibration) : Prop :=
  lc.xmax < lc.xcenter ∨ lc.ymax < lc.ycenter ∨
  lc.xcenter < lc.xmin ∨ lc.ycenter < lc.ymin ∨
  rc.xmax < rc.xcenter ∨ rc.ymax < rc.ycenter ∨
  rc.xcenter < rc.xmin ∨ rc.ycenter < rc.ymin

/-- Claim C10: if both records satisfy `xmin ≤ xcenter ≤ xmax` and
`ymin ≤ ycenter ≤ ymax`, none of the eight unchecked `u16` subtractions in
the record packing underflows, and (for 12-bit fields) each wrapping
subtraction equals the exact difference; without the precondition some
subtraction underflows for some record — e.g. a default-zero record with
`xcenter = 1` wraps to `65535`. -/
theorem commit_no_underflow (lc rc : StickCalibration) :
    (lc.Ordered → rc.Ordered → ¬ commit_sub_underflows lc rc) ∧
    (lc.Bounded12 → rc.Bounded12 → ¬ commit_sub_underflows lc rc →
      wsub16 lc.xmax lc.xcenter = lc.xmax - lc.xcenter ∧
      wsub16 lc.ymax lc.ycenter = lc.ymax - lc.ycenter ∧
      wsub16 lc.xcenter lc.xmin = lc.xcenter - lc.xmin ∧
      wsub16 lc.ycenter lc.ymin = lc.ycenter - lc.ymin ∧
      wsub16 rc.xmax rc.xcenter = rc.xmax - rc.xcenter ∧
      wsub16 rc.ymax rc.ycenter = rc.ymax - rc.ycenter ∧
      wsub16 rc.xcenter rc.xmin = rc.xcenter - rc.xmin ∧
      wsub16 rc.ycenter rc.ymin = rc.ycenter - rc.ymin) ∧
    commit_sub_underflows ⟨0, 0, 1, 1, 0, 0⟩ StickCalibration.default ∧
    wsub16 0 1 = 65535 := by
  refine ⟨?_, ?_, ?_, by decide⟩
  · intro ho hro
    obtain ⟨o1, o2, o3, o4⟩ := ho
    obtain ⟨p1, p2, p3, p4⟩ := hro
    unfold commit_sub_underflows
    omega
  · intro hb hrb hnu
    obtain ⟨b1, b2, b3, b4, b5, b6⟩ := hb
    obtain ⟨c1, c2, c3, c4, c5, c6⟩ := hrb
    unfold commit_sub_underflows at hnu
    refine ⟨?_, ?_, ?_, ?_, ?_, ?_, ?_, ?_⟩ <;> (unfold wsub16; omega)
  · unfold commit_sub_underflows StickCalibration.default
    simp

/-- Witness for `commit_no_underflow`: the ordered 12-bit record used in the
commit witness satisfies all the preconditions. -/
theorem commit_no_underflow_witness :
    ¬ commit_sub_underflows ⟨0xE00, 0xE00, 0x800, 0x800, 0x100, 0x100⟩
        ⟨0xE00, 0xE00, 0x800, 0x800, 0x100, 0x100⟩ ∧
    wsub16 0xE00 0x800 = 0xE00 - 0x800 :=
  have h := commit_no_underflow ⟨0xE00, 0xE00, 0x800, 0x800, 0x100, 0x100⟩
    ⟨0xE00, 0xE00, 0x800, 0x800, 0x100, 0x100⟩
  have hnu := h.1 (by norm_num [StickCalibration.Ordered]) (by norm_num [StickCalibration.Ordered])
  ⟨hnu, (h.2.1 (by norm_num [StickCalibration.Bounded12])
    (by norm_num [StickCalibration.Bounded12]) hnu).1⟩

/-! ### Transport session and the SPI write protocol (`controller.rs`) -/

/-- One observable transport action: a 49-byte output-report write, a timed
read (with its timeout in milliseconds), or a sleep. -/
inductive Ev where
  | write (buf : List Nat)
  | readT (timeout : Nat)
  | sleepMs (ms : Nat)
deriving Repr, DecidableEq

/-- The buffers of the write events of a trace, in order. -/
def writeBufs (evs : List Ev) : List (List Nat) :=
  evs.filterMap fun e =>
    match e with
    | Ev.write b => some b
    | _ => none

/-- The 49-byte command buffer sent by one `write_spi_data` attempt:
`buf[0] = 0x01`, `buf[1] = timing_byte & 0xF`, `buf[10] = 0x11`,
`buf[11..15] = offset.to_le_bytes()`, `buf[15] = data.len() as u8`,
`buf[16..16 + len] = data`, every other byte `0`. -/
def mkSpiCmd (timing offset : Nat) (data : List Nat) : List Nat :=
  [0x01, timing % 16, 0, 0, 0, 0, 0, 0, 0, 0,
   0x11, offset % 256, offset / 256 % 256, offset / 65536 % 256, offset / 16777216 % 256,
   data.length % 256] ++ (List.range 33).map fun j => data.getD j 0

/-- The inner poll loop of `write_spi_data`: up to `fuel` reads with a 64 ms
timeout.  `resp p` is the result of the `p`-th poll (`none` for `Err`, which
breaks out of the attempt); a response with `resp[0x0D] == 0x80` and
`resp[0x0E] == 0x11` is the awaited acknowledgment.  Returns the trace of
read events and whether the acknowledgment was seen. -/
def spiPoll (resp : Nat → Option (List Nat)) (idx : Nat) : Nat → List Ev × Bool
  | 0 => ([], false)
  | fuel + 1 =>
    match resp idx with
    | none => ([Ev.readT 64], false)
    | some r =>
      if r.getD 13 0 = 0x80 ∧ r.getD 14 0 = 0x11 then ([Ev.readT 64], true)
      else
        let rest := spiPoll resp (idx + 1) fuel
        (Ev.readT 64 :: rest.1, rest.2)

/-- The attempt loop of `Controller::write_spi_data`: up to `fuel` attempts
(20 in the code).  Each attempt stamps the command with the current timing
byte, increments the timing byte (wrapping `u8`), sends the command and polls
up to 8 times; on acknowledgment it sleeps 100 ms and returns success, and
after a failed attempt it sleeps 10 ms before the next one.  `resps a p` is
the transport's answer to poll `p` of attempt `a`.  Returns the event trace,
the success flag (`false` models `Err("Failed to write SPI data")`), and the
final timing byte. -/
def spiAttempts (resps : Nat → Nat → Option (List Nat)) (offset : Nat) (data : List Nat) :
    Nat → Nat → Nat → List Ev × Bool × Nat
  | timing, _, 0 => ([], false, timing)
  | timing, attempt, fuel + 1 =>
    let cmd := mkSpiCmd timing offset data
    let p := spiPoll (resps attempt) 0 8
    if p.2 then
      (Ev.write cmd :: p.1 ++ [Ev.sleepMs 100], true, (timing + 1) % 256)
    else
      let rest := spiAttempts resps offset data ((timing + 1) % 256) (attempt + 1) fuel
      (Ev.write cmd :: p.1 ++ Ev.sleepMs 10 :: rest.1, rest.2.1, rest.2.2)

/-- `Controller::write_spi_data(offset, data)` starting from timing byte
`timing`: 20 attempts. -/
def write_spi_data (resps : Nat → Nat → Option (List Nat)) (offset : Nat)
    (data : List Nat) (timing : Nat) : List Ev × Bool × Nat :=
  spiAttempts resps offset data timing 0 20

/-- A transport that never produces the SPI-write acknowledgment bytes
`resp[0x0D] = 0x80`, `resp[0x0E] = 0x11`. -/
def NoSpiAck (resps : Nat → Nat → Option (List Nat)) : Prop :=
  ∀ a p r, resps a p = some r → ¬(r.getD 13 0 = 0x80 ∧ r.getD 14 0 = 0x11)

lemma spiPoll_events (resp : Nat → Option (List Nat)) :
    ∀ fuel idx, (spiPoll resp idx fuel).1.length ≤ fuel ∧
      ∀ e ∈ (spiPoll resp idx fuel).1, e = Ev.readT 64 := by
  intro fuel
  induction fuel with
  | zero => intro idx; simp [spiPoll]
  | succ n ih =>
    intro idx
    rw [spiPoll]
    match resp idx with
    | none => simp
    | some r =>
      dsimp only
      by_cases hack : r.getD 13 0 = 0x80 ∧ r.getD 14 0 = 0x11
      · rw [if_pos hack]; simp
      · rw [if_neg hack]
        have h := ih (idx + 1)
        constructor
        · simpa using h.1
        · intro e he
          rcases List.mem_cons.mp he with he | he
          · exact he
          · exact h.2 e he

lemma spiPoll_noack (resp : Nat → Option (List Nat))
    (h : ∀ p r, resp p = some r → ¬(r.getD 13 0 = 0x80 ∧ r.getD 14 0 = 0x11)) :
    ∀ fuel idx, (spiPoll resp idx fuel).2 = false := by
  intro fuel
  induction fuel with
  | zero => intro idx; rfl
  | succ n ih =>
    intro idx
    rw [spiPoll]
    match hr : resp idx with
    | none => rfl
    | some r =>
      dsimp only
      rw [if_neg (h idx r hr)]
      exact ih (idx + 1)

lemma writeBufs_cons_write (b : List Nat) (l : List Ev) :
    writeBufs (Ev.write b :: l) = b :: writeBufs l := by
  simp [writeBufs]

lemma writeBufs_cons_read (t : Nat) (l : List Ev) :
    writeBufs (Ev.readT t :: l) = writeBufs l := by
  simp [writeBufs]

lemma writeBufs_cons_sleep (ms : Nat) (l : List Ev) :
    writeBufs (Ev.sleepMs ms :: l) = writeBufs l := by
  simp [writeBufs]

lemma writeBufs_append (l1 l2 : List Ev) :
    writeBufs (l1 ++ l2) = writeBufs l1 ++ writeBufs l2 := by
  simp [writeBufs]

lemma writeBufs_of_reads {evs : List Ev} (h : ∀ e ∈ evs, e = Ev.readT 64) :
    writeBufs evs = [] := by
  unfold writeBufs
  rw [List.filterMap_eq_nil_iff]
  intro e he
  rw [h e he]

/-- Trace, success flag and final timing byte of the `write_spi_data` attempt
loop, for any transport: some number `k` of attempts ran (all `fuel` of them
when the loop failed), the commands sent are stamped with consecutive wrapped
timing bytes, the timing byte advances by exactly one per command sent, and
on success the trace contains the 100 ms post-acknowledgment sleep. -/
lemma spiAttempts_master (resps : Nat → Nat → Option (List Nat)) (offset : Nat)
    (data : List Nat) :
    ∀ fuel timing attempt, timing < 256 →
    ∃ k, k ≤ fuel ∧
      ((spiAttempts resps offset data timing attempt fuel).2.1 = false → k = fuel) ∧
      writeBufs (spiAttempts resps offset data timing attempt fuel).1 =
        (List.range k).map (fun i => mkSpiCmd ((timing + i) % 256) offset data) ∧
      (spiAttempts resps offset data timing attempt fuel).2.2 = (timing + k) % 256 ∧
      ((spiAttempts resps offset data timing attempt fuel).2.1 = true →
        Ev.sleepMs 100 ∈ (spiAttempts resps offset data timing attempt fuel).1) := by
  intro fuel
  induction fuel with
  | zero =>
    intro timing attempt ht
    refine ⟨0, Nat.le_refl 0, fun _ => rfl, by simp [spiAttempts, writeBufs],
            by simp [spiAttempts]; omega, by simp [spiAttempts]⟩
  | succ n ih =>
    intro timing attempt ht
    rw [spiAttempts]
    dsimp only
    by_cases hp : (spiPoll (resps attempt) 0 8).2 = true
    · rw [if_pos hp]
      refine ⟨1, by omega, by simp, ?_, by simp, by simp⟩
      dsimp only
      rw [writeBufs_append, writeBufs_cons_write,
          writeBufs_of_reads (spiPoll_events (resps attempt) 8 0).2,
          writeBufs_cons_sleep]
      have hr1 : List.range 1 = [0] := rfl
      rw [hr1, List.map_cons, List.map_nil]
      have h0 : (timing + 0) % 256 = timing := by omega
      rw [h0]
      rfl
    · rw [if_neg hp]
      obtain ⟨k, hkle, hkfull, hwb, ht', hsucc⟩ :=
        ih ((timing + 1) % 256) (attempt + 1) (by omega)
      refine ⟨k + 1, by omega, by intro h; rw [hkfull h], ?_, ?_, ?_⟩
      · dsimp only
        rw [writeBufs_append, writeBufs_cons_write,
            writeBufs_of_reads (spiPoll_events (resps attempt) 8 0).2,
            writeBufs_cons_sleep, hwb]
        rw [List.range_succ_eq_map, List.map_cons, List.map_map]
        have h0 : (timing + 0) % 256 = timing := by omega
        simp only [List.cons_append, List.nil_append]
        refine List.cons_eq_cons.mpr ⟨by rw [h0], ?_⟩
        refine List.map_congr_left fun i _ => ?_
        simp only [Function.comp]
        congr 1
        omega
      · dsimp only
        rw [ht']
        omega
      · intro hs
        dsimp only at hs ⊢
        have hmem := hsucc hs
        exact List.mem_cons_of_mem _ (List.mem_append_right _ (List.mem_cons_of_mem _ hmem))

lemma spiAttempts_noack (resps : Nat → Nat → Option (List Nat)) (offset : Nat)
    (data : List Nat) (h : NoSpiAck resps) :
    ∀ fuel timing attempt,
      (spiAttempts resps offset data timing attempt fuel).2.1 = false ∧
      Ev.sleepMs 100 ∉ (spiAttempts resps offset data timing attempt fuel).1 := by
  intro fuel
  induction fuel with
  | zero => intro t a; simp [spiAttempts]
  | succ n ih =>
    intro t a
    rw [spiAttempts]
    dsimp only
    have hp : (spiPoll (resps a) 0 8).2 = false :=
      spiPoll_noack (resps a) (fun p r hr => h a p r hr) 8 0
    rw [if_neg (by simp [hp])]
    refine ⟨(ih ((t + 1) % 256) (a + 1)).1, ?_⟩
    intro hmem
    rcases List.mem_append.mp hmem with h1 | h1
    · rcases List.mem_cons.mp h1 with h2 | h2
      · cases h2
      · have := (spiPoll_events (resps a) 8 0).2 _ h2
        cases this
    · rcases List.mem_cons.mp h1 with h2 | h2
      · cases h2
      · exact (ih ((t + 1) % 256) (a + 1)).2 h2

lemma spiAttempts_reads (resps : Nat → Nat → Option (List Nat)) (offset : Nat)
    (data : List Nat) :
    ∀ fuel timing attempt t,
      Ev.readT t ∈ (spiAttempts resps offset data timing attempt fuel).1 → t = 64 := by
  intro fuel
  induction fuel with
  | zero => intro tm a t hmem; simp [spiAttempts] at hmem
  | succ n ih =>
    intro tm a t hmem
    rw [spiAttempts] at hmem
    dsimp only at hmem
    by_cases hp : (spiPoll (resps a) 0 8).2 = true
    · rw [if_pos hp] at hmem
      rcases List.mem_append.mp hmem with h1 | h1
      · rcases List.mem_cons.mp h1 with h2 | h2
        · cases h2
        · have := (spiPoll_events (resps a) 8 0).2 _ h2
          injection this
      · rcases List.mem_cons.mp h1 with h2 | h2
        · cases h2
        · cases h2
    · rw [if_neg hp] at hmem
      rcases List.mem_append.mp hmem with h1 | h1
      · rcases List.mem_cons.mp h1 with h2 | h2
        · cases h2
        · have := (spiPoll_events (resps a) 8 0).2 _ h2
          injection this
      · rcases List.mem_cons.mp h1 with h2 | h2
        · cases h2
        · exact ih ((tm + 1) % 256) (a + 1) t h2

lemma mkSpiCmd_layout (t offs : Nat) (data : List Nat) (hlen : data.length ≤ 25) :
    (mkSpiCmd t offs data).length = 49 ∧
    (mkSpiCmd t offs data).getD 0 0 = 0x01 ∧
    (mkSpiCmd t offs data).getD 1 0 = t % 16 ∧
    (mkSpiCmd t offs data).getD 10 0 = 0x11 ∧
    (mkSpiCmd t offs data).getD 11 0 = offs % 256 ∧
    (mkSpiCmd t offs data).getD 12 0 = offs / 256 % 256 ∧
    (mkSpiCmd t offs data).getD 13 0 = offs / 65536 % 256 ∧
    (mkSpiCmd t offs data).getD 14 0 = offs / 16777216 % 256 ∧
    (mkSpiCmd t offs data).getD 15 0 = data.length ∧
    ∀ i < data.length, (mkSpiCmd t offs data).getD (16 + i) 0 = data.getD i 0 := by
  unfold mkSpiCmd
  refine ⟨by simp, rfl, rfl, rfl, rfl, rfl, rfl, rfl, ?_, ?_⟩
  · show data.length % 256 = data.length
    omega
  · intro i hi
    rw [List.getD_append_right _ _ _ _ (by simp)]
    have hidx : 16 + i - ([1, t % 16, 0, 0, 0, 0, 0, 0, 0, 0, 17, offs % 256,
        offs / 256 % 256, offs / 65536 % 256, offs / 16777216 % 256,
        data.length % 256] : List Nat).length = i := by
      simp
    rw [hidx]
    have hlt : i < ((List.range 33).map fun j => data.getD j 0).length := by
      simp
      omega
    rw [List.getD_eq_getElem _ _ hlt]
    simp

/-- Claim C5: if the transport never returns a response with
`byte[0x0D] = 0x80` and `byte[0x0E] = 0x11`, then `write_spi_data` sends its
command exactly 20 times and then fails (no partial success); every read it
issues uses the 64 ms timeout and each attempt polls at most 8 times; every
command sent carries command byte `0x01`, subcommand `0x11` at byte 10, the
little-endian address at bytes 11..14, the length at byte 15 and the payload
from byte 16; and whenever the call succeeds the trace contains the 100 ms
post-acknowledgment sleep. -/
theorem write_spi_retry_spec (resps : Nat → Nat → Option (List Nat)) (offset : Nat)
    (data : List Nat) (timing : Nat) (ht : timing < 256) (hlen : data.length ≤ 25) :
    (NoSpiAck resps →
      (writeBufs (write_spi_data resps offset data timing).1).length = 20 ∧
      (write_spi_data resps offset data timing).2.1 = false ∧
      Ev.sleepMs 100 ∉ (write_spi_data resps offset data timing).1) ∧
    (∀ t, Ev.readT t ∈ (write_spi_data resps offset data timing).1 → t = 64) ∧
    (∀ a, (spiPoll (resps a) 0 8).1.length ≤ 8) ∧
    (∀ cmd ∈ writeBufs (write_spi_data resps offset data timing).1,
      cmd.length = 49 ∧ cmd.getD 0 0 = 0x01 ∧ cmd.getD 10 0 = 0x11 ∧
      cmd.getD 11 0 = offset % 256 ∧ cmd.getD 12 0 = offset / 256 % 256 ∧
      cmd.getD 13 0 = offset / 65536 % 256 ∧ cmd.getD 14 0 = offset / 16777216 % 256 ∧
      cmd.getD 15 0 = data.length ∧
      ∀ i < data.length, cmd.getD (16 + i) 0 = data.getD i 0) ∧
    ((write_spi_data resps offset data timing).2.1 = true →
      Ev.sleepMs 100 ∈ (write_spi_data resps offset data timing).1) := by
  obtain ⟨k, hk20, hkfull, hwb, htend, hsucc⟩ :=
    spiAttempts_master resps offset data 20 timing 0 ht
  unfold write_spi_data
  refine ⟨?_, ?_, ?_, ?_, ?_⟩
  · intro hna
    obtain ⟨hres, hnos⟩ := spiAttempts_noack resps offset data hna 20 timing 0
    refine ⟨?_, hres, hnos⟩
    rw [hwb, List.length_map, List.length_range]
    exact hkfull hres
  · intro t hmem
    exact spiAttempts_reads resps offset data 20 timing 0 t hmem
  · intro a
    exact (spiPoll_events (resps a) 8 0).1
  · intro cmd hcmd
    rw [hwb] at hcmd
    obtain ⟨i, hi, hceq⟩ := List.mem_map.mp hcmd
    obtain ⟨l1, l2, _, l4, l5, l6, l7, l8, l9, l10⟩ :=
      mkSpiCmd_layout ((timing + i) % 256) offset data hlen
    rw [← hceq]
    exact ⟨l1, l2, l4, l5, l6, l7, l8, l9, l10⟩
  · exact hsucc

/-- Witness for `write_spi_retry_spec`: a transport that always errors makes
the write fail after exactly 20 attempts. -/
theorem write_spi_retry_spec_witness :
    (writeBufs (write_spi_data (fun _ _ => none) 0x603D [1, 2, 3] 0).1).length = 20 ∧
    (write_spi_data (fun _ _ => none) 0x603D [1, 2, 3] 0).2.1 = false :=
  have h := write_spi_retry_spec (fun _ _ => none) 0x603D [1, 2, 3] 0 (by omega) (by simp)
  have hna : NoSpiAck (fun _ _ => none) := fun a p r hr => by cases hr
  ⟨(h.1 hna).1, (h.1 hna).2.1⟩

/-- The 49-byte command sent by `Controller::enable_standard_input`:
`cmd[0] = 0x01`, `cmd[1] = timing_byte & 0xF`, `cmd[10] = 0x03` (subcommand),
`cmd[11] = 0x30` (argument). -/
def mkEnableCmd (timing : Nat) : List Nat :=
  [0x01, timing % 16, 0, 0, 0, 0, 0, 0, 0, 0, 0x03, 0x30] ++ List.replicate 37 0

/-- `Controller::enable_standard_input`: sends one command stamped with the
current timing byte, increments the timing byte (wrapping `u8`), then sleeps
100 ms; no acknowledgment is read. Returns the trace and the new timing
byte. -/
def enable_standard_input (timing : Nat) : List Ev × Nat :=
  ([Ev.write (mkEnableCmd timing), Ev.sleepMs 100], (timing + 1) % 256)

/-- The 49-byte command sent by each `Controller::get_device_info` attempt:
`cmd[0] = 0x01`, `cmd[10] = 0x02`, every other byte — including byte 1 —
left at zero.  The method takes `&self`, so it cannot and does not update
the timing byte. -/
def mkInfoCmd : List Nat :=
  [0x01, 0, 0, 0, 0, 0, 0, 0, 0, 0, 0x02] ++ List.replicate 38 0

/-- The inner poll loop of `get_device_info`: up to `fuel` reads with a
64 ms timeout; `Err` breaks the attempt; a response with
`buf[0x0D] == 0x82` and `buf[0x0E] == 0x02` is returned (source of the
firmware and MAC strings). -/
def infoPoll (resp : Nat → Option (List Nat)) (idx : Nat) :
    Nat → List Ev × Option (List Nat)
  | 0 => ([], none)
  | fuel + 1 =>
    match resp idx with
    | none => ([Ev.readT 64], none)
    | some r =>
      if r.getD 13 0 = 0x82 ∧ r.getD 14 0 = 0x02 then ([Ev.readT 64], some r)
      else
        let rest := infoPoll resp (idx + 1) fuel
        (Ev.readT 64 :: rest.1, rest.2)

/-- The attempt loop of `get_device_info` (`while error_reading < 20`). -/
def infoAttempts (resps : Nat → Nat → Option (List Nat)) :
    Nat → Nat → List Ev × Option (List Nat)
  | _, 0 => ([], none)
  | attempt, fuel + 1 =>
    let p := infoPoll (resps attempt) 0 8
    match p.2 with
    | some r => (Ev.write mkInfoCmd :: p.1, some r)
    | none =>
      let rest := infoAttempts resps (attempt + 1) fuel
      (Ev.write mkInfoCmd :: p.1 ++ rest.1, rest.2)

/-- `Controller::get_device_info`: up to 20 attempts; returns the trace and
the matched response, if any. -/
def get_device_info (resps : Nat → Nat → Option (List Nat)) :
    List Ev × Option (List Nat) :=
  infoAttempts resps 0 20

lemma infoPoll_events (resp : Nat → Option (List Nat)) :
    ∀ fuel idx, ∀ e ∈ (infoPoll resp idx fuel).1, e = Ev.readT 64 := by
  intro fuel
  induction fuel with
  | zero => intro idx e he; simp [infoPoll] at he
  | succ n ih =>
    intro idx e he
    rw [infoPoll] at he
    match hr : resp idx with
    | none => rw [hr] at he; simp at he; exact he
    | some r =>
      rw [hr] at he
      dsimp only at he
      by_cases hack : r.getD 13 0 = 0x82 ∧ r.getD 14 0 = 0x02
      · rw [if_pos hack] at he
        simp at he
        exact he
      · rw [if_neg hack] at he
        rcases List.mem_cons.mp he with h1 | h1
        · exact h1
        · exact ih (idx + 1) e h1

lemma infoAttempts_writes (resps : Nat → Nat → Option (List Nat)) :
    ∀ fuel attempt, ∀ cmd ∈ writeBufs (infoAttempts resps attempt fuel).1,
      cmd = mkInfoCmd := by
  intro fuel
  induction fuel with
  | zero => intro a cmd hc; simp [infoAttempts, writeBufs] at hc
  | succ n ih =>
    intro a cmd hc
    rw [infoAttempts] at hc
    dsimp only at hc
    match hp : (infoPoll (resps a) 0 8).2 with
    | some r =>
      rw [hp] at hc
      dsimp only at hc
      rw [writeBufs_cons_write] at hc
      rcases List.mem_cons.mp hc with h1 | h1
      · exact h1
      · rw [writeBufs_of_reads (infoPoll_events (resps a) 8 0)] at h1
        simp at h1
    | none =>
      rw [hp] at hc
      dsimp only at hc
      rw [writeBufs_append, writeBufs_cons_write,
          writeBufs_of_reads (infoPoll_events (resps a) 8 0)] at hc
      rcases List.mem_append.mp hc with h1 | h1
      · rcases List.mem_cons.mp h1 with h2 | h2
        · exact h2
        · simp at h2
      · exact ih (a + 1) cmd h1

/-- The rolling-counter discipline that claim C3 asserts for a burst of
framed commands sent while the session counter starts at `t`: the i-th
command's byte 1 holds the current 4-bit counter value, and the counter
increments exactly once per command. -/
def CounterRule (t : Nat) (cmds : List (List Nat)) : Prop :=
  ∀ i < cmds.length, (cmds.getD i []).getD 1 0 = (t + i) % 16

/-- Counterexample to claim C3 as stated: the device-info query does not
follow the rolling-counter discipline.  With a transport that always errors,
`get_device_info` sends 20 framed commands whose byte 1 is always `0` (the
method never writes `cmd[1]` and, taking `&self`, cannot advance the
counter), and no starting counter value makes that burst satisfy the
increment-per-command rule. -/
theorem rolling_counter_counterexample :
    (writeBufs (get_device_info (fun _ _ => none)).1).length = 20 ∧
    (∀ cmd ∈ writeBufs (get_device_info (fun _ _ => none)).1, cmd.getD 1 0 = 0) ∧
    ¬ ∃ t, CounterRule t (writeBufs (get_device_info (fun _ _ => none)).1) := by
  refine ⟨by decide, by decide, ?_⟩
  rintro ⟨t, hrule⟩
  have h0 := hrule 0 (by decide)
  have h1 := hrule 1 (by decide)
  rw [show ((writeBufs (get_device_info (fun _ _ => none)).1).getD 0 []).getD 1 0 = 0
      from by decide] at h0
  rw [show ((writeBufs (get_device_info (fun _ _ => none)).1).getD 1 []).getD 1 0 = 0
      from by decide] at h1
  omega

/-- Claim C3 (corrected): `enable_standard_input` and every `write_spi_data`
attempt stamp byte 1 of the 49-byte output report with the current 4-bit
counter value (`timing_byte & 0xF`) and increment the session counter exactly
once per command sent, wrapping; the device-info query, however, sends
commands whose byte 1 is always `0` and leaves the counter untouched. -/
theorem rolling_counter_spec (t : Nat) (ht : t < 256)
    (resps : Nat → Nat → Option (List Nat)) (offset : Nat) (data : List Nat) :
    (writeBufs (enable_standard_input t).1 = [mkEnableCmd t] ∧
     (mkEnableCmd t).getD 1 0 = t % 16 ∧
     (enable_standard_input t).2 = (t + 1) % 256) ∧
    (∀ i < (writeBufs (write_spi_data resps offset data t).1).length,
      ((writeBufs (write_spi_data resps offset data t).1).getD i []).getD 1 0 =
        (t + i) % 256 % 16) ∧
    ((write_spi_data resps offset data t).2.2 =
      (t + (writeBufs (write_spi_data resps offset data t).1).length) % 256) ∧
    (∀ cmd ∈ writeBufs (get_device_info resps).1, cmd.getD 1 0 = 0) := by
  obtain ⟨k, hk20, hkfull, hwb, htend, hsucc⟩ :=
    spiAttempts_master resps offset data 20 t 0 ht
  unfold write_spi_data
  refine ⟨⟨by simp [enable_standard_input, writeBufs], rfl, rfl⟩, ?_, ?_, ?_⟩
  · intro i hi
    rw [hwb] at hi ⊢
    rw [List.length_map, List.length_range] at hi
    have hlt : i < (List.map (fun j => mkSpiCmd ((t + j) % 256) offset data)
        (List.range k)).length := by
      rw [List.length_map, List.length_range]
      exact hi
    rw [List.getD_eq_getElem _ _ hlt]
    simp only [List.getElem_map, List.getElem_range]
    rfl
  · rw [hwb, List.length_map, List.length_range]
    exact htend
  · intro cmd hc
    rw [infoAttempts_writes resps 20 0 cmd hc]
    rfl

/-- Witness for `rolling_counter_spec`: session counter starting at 5 with a
transport that always errors; the second SPI command is stamped `6 & 0xF`. -/
theorem rolling_counter_spec_witness :
    (mkEnableCmd 5).getD 1 0 = 5 % 16 ∧
    ((writeBufs (write_spi_data (fun _ _ => none) 0x6089 [7] 5).1).getD 1 []).getD 1 0 =
      (5 + 1) % 256 % 16 ∧
    (write_spi_data (fun _ _ => none) 0x6089 [7] 5).2.2 =
      (5 + (writeBufs (write_spi_data (fun _ _ => none) 0x6089 [7] 5).1).length) % 256 :=
  have h := rolling_counter_spec 5 (by omega) (fun _ _ => none) 0x6089 [7]
  ⟨h.1.2.1, h.2.1 1 (by decide), h.2.2.1⟩

/-! ### Axis remap preview (`main.rs`, `remap_calibrated_axis`)

The remap runs on `f32` values, so it is modelled on an exact representation
of IEEE-754 binary32: a finite value is the rational it denotes, and every
arithmetic step rounds its exact result back to binary32 with
round-to-nearest, ties-to-even (including gradual underflow to subnormals
and overflow to the signed infinities); `0.0 / 0.0` is NaN.  The model has a
single (unsigned) zero: under round-to-nearest a difference `x - y` is
`+0.0` exactly when `x = y`, so every zero denominator reaching the
divisions below carries positive sign and the signed-infinity results chosen
here match binary32. -/

/-- An `f32` value: a finite value (the exact rational it denotes), one of
the signed infinities, or NaN. -/
inductive ExtF where
  | fin (q : ℚ)
  | posInf
  | negInf
  | nan
deriving DecidableEq, Repr

/-- Round the integer fraction `a / b` (`b > 0`) to the nearest integer,
ties to even. -/
def rne (a b : Int) : Int :=
  let n := a.fdiv b
  let r := a - n * b
  if 2 * r > b then n + 1
  else if 2 * r < b then n
  else if n % 2 = 0 then n else n + 1

/-- `na / bn < 2 ^ k`, for `na ≥ 0`, `bn > 0`, in pure integer
arithmetic. -/
def qLtPow2 (na bn : Int) (k : Int) : Bool :=
  match k with
  | Int.ofNat m => na < 2 ^ m * bn
  | Int.negSucc m => na * 2 ^ (m + 1) < bn

/-- Round the exact rational `a / b` to IEEE-754 binary32 with
round-to-nearest, ties-to-even: values below `2 ^ (-126)` in magnitude round
on the subnormal grid (unit `2 ^ (-149)`), normal values round at 24
significant bits (unit `2 ^ (e - 23)` on the binade `[2 ^ e, 2 ^ (e + 1))`),
and results of magnitude at least `2 ^ 128` overflow to the signed
infinity. -/
def roundRatF32 (a b : Int) : ExtF :=
  if b = 0 then ExtF.nan
  else
    let an : Int := if b < 0 then -a else a
    let bn : Int := if b < 0 then -b else b
    if an = 0 then ExtF.fin 0
    else
      let na : Int := if an < 0 then -an else an
      if na * 2 ^ 126 < bn then
        ExtF.fin (Rat.divInt (rne (an * 2 ^ 149) bn) (2 ^ 149))
      else
        match (List.range 254).findIdx? fun i => qLtPow2 na bn ((i : Int) - 125) with
        | none => if an > 0 then ExtF.posInf else ExtF.negInf
        | some i =>
          match (i : Int) - 149 with
          | Int.ofNat u =>
            let m := rne an (bn * 2 ^ u)
            if 2 ^ 128 ≤ (if m < 0 then -m else m) * 2 ^ u then
              if an > 0 then ExtF.posInf else ExtF.negInf
            else ExtF.fin (Rat.divInt (m * 2 ^ u) 1)
          | Int.negSucc u =>
            ExtF.fin (Rat.divInt (rne (an * 2 ^ (u + 1)) bn) (2 ^ (u + 1)))

/-- `f32` subtraction: exact difference of the finite operands, rounded to
binary32; infinities and NaN follow the IEEE tables. -/
def fsub : ExtF → ExtF → ExtF
  | ExtF.nan, _ => ExtF.nan
  | _, ExtF.nan => ExtF.nan
  | ExtF.posInf, ExtF.posInf => ExtF.nan
  | ExtF.negInf, ExtF.negInf => ExtF.nan
  | ExtF.posInf, _ => ExtF.posInf
  | ExtF.negInf, _ => ExtF.negInf
  | ExtF.fin _, ExtF.posInf => ExtF.negInf
  | ExtF.fin _, ExtF.negInf => ExtF.posInf
  | ExtF.fin a, ExtF.fin b =>
      roundRatF32 (a.num * (b.den : Int) - b.num * (a.den : Int))
        ((a.den : Int) * (b.den : Int))

/-- `f32` addition: exact sum of the finite operands, rounded to binary32;
infinities and NaN follow the IEEE tables. -/
def faddE : ExtF → ExtF → ExtF
  | ExtF.nan, _ => ExtF.nan
  | _, ExtF.nan => ExtF.nan
  | ExtF.posInf, ExtF.negInf => ExtF.nan
  | ExtF.negInf, ExtF.posInf => ExtF.nan
  | ExtF.posInf, _ => ExtF.posInf
  | _, ExtF.posInf => ExtF.posInf
  | ExtF.negInf, _ => ExtF.negInf
  | _, ExtF.negInf => ExtF.negInf
  | ExtF.fin a, ExtF.fin b =>
      roundRatF32 (a.num * (b.den : Int) + b.num * (a.den : Int))
        ((a.den : Int) * (b.den : Int))

/-- `f32` division: exact quotient of the finite operands, rounded to
binary32; a nonzero value divided by (positive) zero is the signed infinity,
`0.0 / 0.0` is NaN, and infinities and NaN follow the IEEE tables. -/
def fdivE : ExtF → ExtF → ExtF
  | ExtF.nan, _ => ExtF.nan
  | _, ExtF.nan => ExtF.nan
  | ExtF.posInf, ExtF.posInf => ExtF.nan
  | ExtF.posInf, ExtF.negInf => ExtF.nan
  | ExtF.negInf, ExtF.posInf => ExtF.nan
  | ExtF.negInf, ExtF.negInf => ExtF.nan
  | ExtF.posInf, ExtF.fin b => if b < 0 then ExtF.negInf else ExtF.posInf
  | ExtF.negInf, ExtF.fin b => if b < 0 then ExtF.posInf else ExtF.negInf
  | ExtF.fin _, ExtF.posInf => ExtF.fin 0
  | ExtF.fin _, ExtF.negInf => ExtF.fin 0
  | ExtF.fin a, ExtF.fin b =>
      if b = 0 then
        if a > 0 then ExtF.posInf else if a < 0 then ExtF.negInf else ExtF.nan
      else roundRatF32 (a.num * (b.den : Int)) ((a.den : Int) * b.num)

/-- `f32` strict less-than: exact comparison on finite values, any
comparison involving NaN is false. -/
def flt : ExtF → ExtF → Bool
  | ExtF.nan, _ => false
  | _, ExtF.nan => false
  | ExtF.fin a, ExtF.fin b => decide (a < b)
  | ExtF.negInf, ExtF.negInf => false
  | ExtF.negInf, _ => true
  | _, ExtF.negInf => false
  | ExtF.posInf, _ => false
  | ExtF.fin _, ExtF.posInf => true

/-- `f32::clamp(0.0, 1.0)`: below `0` clamps to `0`, above `1` clamps to
`1`, `+∞` to `1`, `-∞` to `0`, NaN propagates. -/
def fclamp01 : ExtF → ExtF
  | ExtF.fin q => ExtF.fin (if q < 0 then 0 else if q > 1 then 1 else q)
  | ExtF.posInf => ExtF.fin 1
  | ExtF.negInf => ExtF.fin 0
  | ExtF.nan => ExtF.nan

/-- `fn remap_calibrated_axis(value, min, center, max, deadzone: f32)`:
`if value < center - deadzone { (value - min) / (center - deadzone - min) / 2.0 }`
`else if value > center + deadzone { (value - deadzone - center) / (max - center - deadzone) / 2.0 + 0.5 }`
`else { 0.5 }`, then `.clamp(0.0, 1.0)`; each operation is an `f32`
operation and rounds. -/
def remap_calibrated_axis (value mn center mx deadzone : ExtF) : ExtF :=
  fclamp01
    (if flt value (fsub center deadzone) then
      fdivE (fdivE (fsub value mn) (fsub (fsub center deadzone) mn)) (ExtF.fin 2)
    else if flt (faddE center deadzone) value then
      faddE (fdivE (fdivE (fsub (fsub value deadzone) center)
          (fsub (fsub mx center) deadzone)) (ExtF.fin 2)) (ExtF.fin (Rat.divInt 1 2))
    else ExtF.fin (Rat.divInt 1 2))

/-- The branch taken by `remap_calibrated_axis` divides by a zero
denominator. -/
def remapZeroDiv (value mn center mx deadzone : ExtF) : Prop :=
  (flt value (fsub center deadzone) = true ∧
    fsub (fsub center deadzone) mn = ExtF.fin 0) ∨
  (flt value (fsub center deadzone) = false ∧
    flt (faddE center deadzone) value = true ∧
    fsub (fsub mx center) deadzone = ExtF.fin 0)

/-- The result is a finite value inside `[0, 1]` (in particular not NaN and
not an infinity). -/
def ExtF.In01 : ExtF → Prop
  | ExtF.fin q => 0 ≤ q ∧ q ≤ 1
  | _ => False

lemma fclamp01_cases (x : ExtF) :
    fclamp01 x = ExtF.nan ∨ (fclamp01 x).In01 := by
  rcases x with q | _ | _ | _
  · right
    unfold fclamp01
    dsimp only
    by_cases h0 : q < 0
    · rw [if_pos h0]
      exact ⟨le_refl 0, by norm_num⟩
    · rw [if_neg h0]
      by_cases h1 : q > 1
      · rw [if_pos h1]
        exact ⟨by norm_num, le_refl 1⟩
      · rw [if_neg h1]
        exact ⟨le_of_not_lt h0, le_of_not_lt h1⟩
  · right; exact ⟨by norm_num, le_refl 1⟩
  · right; exact ⟨le_refl 0, by norm_num⟩
  · left; rfl

lemma div_zero_saturates_lo (x : ExtF) :
    fclamp01 (fdivE (fdivE x (ExtF.fin 0)) (ExtF.fin 2)) = ExtF.fin 0 ∨
    fclamp01 (fdivE (fdivE x (ExtF.fin 0)) (ExtF.fin 2)) = ExtF.fin 1 ∨
    fclamp01 (fdivE (fdivE x (ExtF.fin 0)) (ExtF.fin 2)) = ExtF.nan := by
  have h2 : ¬ ((2 : ℚ) < 0) := by norm_num
  rcases x with q | _ | _ | _
  · rcases lt_trichotomy q 0 with hq | hq | hq
    · left
      simp [fdivE, fclamp01, hq, hq.not_lt, h2]
    · right; right
      subst hq
      simp [fdivE, fclamp01]
    · right; left
      simp [fdivE, fclamp01, hq, hq.not_lt, h2]
  · right; left
    simp [fdivE, fclamp01, h2]
  · left
    simp [fdivE, fclamp01, h2]
  · right; right
    simp [fdivE, fclamp01]

lemma div_zero_saturates_hi (x : ExtF) :
    fclamp01 (faddE (fdivE (fdivE x (ExtF.fin 0)) (ExtF.fin 2))
        (ExtF.fin (Rat.divInt 1 2))) = ExtF.fin 0 ∨
    fclamp01 (faddE (fdivE (fdivE x (ExtF.fin 0)) (ExtF.fin 2))
        (ExtF.fin (Rat.divInt 1 2))) = ExtF.fin 1 ∨
    fclamp01 (faddE (fdivE (fdivE x (ExtF.fin 0)) (ExtF.fin 2))
        (ExtF.fin (Rat.divInt 1 2))) = ExtF.nan := by
  have h2 : ¬ ((2 : ℚ) < 0) := by norm_num
  rcases x with q | _ | _ | _
  · rcases lt_trichotomy q 0 with hq | hq | hq
    · left
      simp [fdivE, faddE, fclamp01, hq, hq.not_lt, h2]
    · right; right
      subst hq
      simp [fdivE, faddE, fclamp01]
    · right; left
      simp [fdivE, faddE, fclamp01, hq, hq.not_lt, h2]
  · right; left
    simp [fdivE, faddE, fclamp01, h2]
  · left
    simp [fdivE, faddE, fclamp01, h2]
  · right; right
    simp [fdivE, faddE, fclamp01]

set_option maxRecDepth 1000000 in
/-- Counterexample to claim C8 as stated: the zero-denominator case is not
guarded, and the result is not always in `[0, 1]`.  At
`value = 0, min = 1, center = 1, max = 2, deadzone = 0` the first branch is
taken with denominator `center - deadzone - min = 0.0`; the division by zero
is performed and IEEE semantics (negative numerator over `+0.0` gives `-∞`)
plus the clamp turn it into `0`.  And at
`value = 1, min = 0, center = -1e8, max = 2, deadzone = 1e8` the second
branch is taken while `f32` rounding makes the numerator
`(value - deadzone) - center` and the denominator
`(max - center) - deadzone` both `0.0`, so the code computes
`0.0 / 0.0 = NaN`, which the clamp propagates: the function returns NaN. -/
theorem remap_zero_division_counterexample :
    (remapZeroDiv (ExtF.fin 0) (ExtF.fin 1) (ExtF.fin 1) (ExtF.fin 2) (ExtF.fin 0) ∧
     remap_calibrated_axis (ExtF.fin 0) (ExtF.fin 1) (ExtF.fin 1) (ExtF.fin 2)
       (ExtF.fin 0) = ExtF.fin 0) ∧
    remap_calibrated_axis (ExtF.fin 1) (ExtF.fin 0) (ExtF.fin (-100000000)) (ExtF.fin 2)
      (ExtF.fin 100000000) = ExtF.nan := by
  refine ⟨⟨?_, ?_⟩, ?_⟩
  · unfold remapZeroDiv
    decide
  · decide
  · decide

/-- Claim C8 (corrected): `remap_calibrated_axis` has no zero-denominator
guard.  On a degenerate denominator the taken branch performs the division
by zero: when the (rounded) numerator is nonzero this yields an IEEE
infinity which the final clamp saturates to `0` or `1`, but `f32` rounding
can make the numerator zero as well, and then `0.0 / 0.0 = NaN` propagates
through the clamp, so the function does not always return a value in
`[0, 1]`.  What holds instead: for every input, the result is either NaN or
a finite value in `[0, 1]`, and whenever the taken branch has a zero
denominator the result is exactly `0`, exactly `1`, or NaN. -/
theorem remap_in_unit_interval (value mn center mx deadzone : ExtF) :
    (remap_calibrated_axis value mn center mx deadzone = ExtF.nan ∨
     (remap_calibrated_axis value mn center mx deadzone).In01) ∧
    (remapZeroDiv value mn center mx deadzone →
      remap_calibrated_axis value mn center mx deadzone = ExtF.fin 0 ∨
      remap_calibrated_axis value mn center mx deadzone = ExtF.fin 1 ∨
      remap_calibrated_axis value mn center mx deadzone = ExtF.nan) := by
  constructor
  · unfold remap_calibrated_axis
    exact fclamp01_cases _
  · intro hzd
    unfold remap_calibrated_axis
    rcases hzd with ⟨hc, hden⟩ | ⟨hc1, hc2, hden⟩
    · rw [if_pos hc, hden]
      exact div_zero_saturates_lo (fsub value mn)
    · rw [if_neg (by rw [hc1]; exact Bool.false_ne_true), if_pos hc2, hden]
      exact div_zero_saturates_hi (fsub (fsub value deadzone) center)

set_option maxRecDepth 1000000 in
/-- Witness for `remap_in_unit_interval` at the degenerate input
`value = 0, min = 1, center = 1, max = 2, deadzone = 0`. -/
theorem remap_in_unit_interval_witness :
    (remap_calibrated_axis (ExtF.fin 0) (ExtF.fin 1) (ExtF.fin 1) (ExtF.fin 2)
        (ExtF.fin 0) = ExtF.nan ∨
     (remap_calibrated_axis (ExtF.fin 0) (ExtF.fin 1) (ExtF.fin 1) (ExtF.fin 2)
        (ExtF.fin 0)).In01) ∧
    (remap_calibrated_axis (ExtF.fin 0) (ExtF.fin 1) (ExtF.fin 1) (ExtF.fin 2)
        (ExtF.fin 0) = ExtF.fin 0 ∨
     remap_calibrated_axis (ExtF.fin 0) (ExtF.fin 1) (ExtF.fin 1) (ExtF.fin 2)
        (ExtF.fin 0) = ExtF.fin 1 ∨
     remap_calibrated_axis (ExtF.fin 0) (ExtF.fin 1) (ExtF.fin 1) (ExtF.fin 2)
        (ExtF.fin 0) = ExtF.nan) :=
  have h := remap_in_unit_interval (ExtF.fin 0) (ExtF.fin 1) (ExtF.fin 1) (ExtF.fin 2)
    (ExtF.fin 0)
  ⟨h.1, h.2 (by unfold remapZeroDiv; decide)⟩
